import Mathlib

/-!
Verification of the WebXR webcam-emulator polyfill (src/polyfill.js).

The development shallowly embeds the polyfill's tracking-fusion math,
hand-skeleton construction, session state machine, gesture detection and
viewer-pose synthesis as Lean definitions over the reals, and proves the
specified properties about them.  JavaScript numbers are idealised as real
numbers; out-of-domain square roots and divisions take Lean's junk values
(Real.sqrt of a negative is 0, division by 0 is 0).
-/

namespace WebXRWebcam

noncomputable section

/-- A 3-component vector, as used for positions and directions. -/
@[ext]
structure Vec3 where
  x : ℝ
  y : ℝ
  z : ℝ

/-- A quaternion with components x, y, z, w as in the polyfill. -/
@[ext]
structure Quat where
  x : ℝ
  y : ℝ
  z : ℝ
  w : ℝ

/-- The identity quaternion, written as x 0 y 0 z 0 w 1 in the source. -/
def Quat.ident : Quat := ⟨0, 0, 0, 1⟩

/-- Componentwise negation of a quaternion. -/
def Quat.neg (q : Quat) : Quat := ⟨-q.x, -q.y, -q.z, -q.w⟩

/-- Sum of squared components of a quaternion. -/
def Quat.sumSq (q : Quat) : ℝ := q.x ^ 2 + q.y ^ 2 + q.z ^ 2 + q.w ^ 2

/-- A quaternion is unit iff its components sum of squares is 1. -/
def unitQuat (q : Quat) : Prop := q.sumSq = 1

/-- Euclidean norm of a Vec3, written sqrt of x*x + y*y + z*z in the source. -/
def vnorm (v : Vec3) : ℝ := Real.sqrt (v.x * v.x + v.y * v.y + v.z * v.z)

/-- Euclidean norm of a quaternion, as computed for the len variable in
updateHeadFromMatrix (src/polyfill.js line 287). -/
def quatNorm (q : Quat) : ℝ :=
  Real.sqrt (q.x * q.x + q.y * q.y + q.z * q.z + q.w * q.w)

/--
The column-major 4x4 matrix of an XRRigidTransform
(src/polyfill.js lines 1137-1170): the rotation block is derived from the
orientation quaternion and the translation goes into entries 12-14.
The let-bound products x2, xy, ... of the source are inlined.
-/
def rigidMatrix (p : Vec3) (q : Quat) : ℕ → ℝ := fun i =>
  match i with
  | 0 => 1 - (q.y * (q.y + q.y) + q.z * (q.z + q.z))
  | 1 => q.x * (q.y + q.y) + q.w * (q.z + q.z)
  | 2 => q.x * (q.z + q.z) - q.w * (q.y + q.y)
  | 3 => 0
  | 4 => q.x * (q.y + q.y) - q.w * (q.z + q.z)
  | 5 => 1 - (q.x * (q.x + q.x) + q.z * (q.z + q.z))
  | 6 => q.y * (q.z + q.z) + q.w * (q.x + q.x)
  | 7 => 0
  | 8 => q.x * (q.z + q.z) + q.w * (q.y + q.y)
  | 9 => q.y * (q.z + q.z) - q.w * (q.x + q.x)
  | 10 => 1 - (q.x * (q.x + q.x) + q.y * (q.y + q.y))
  | 11 => 0
  | 12 => p.x
  | 13 => p.y
  | 14 => p.z
  | 15 => 1
  | _ => 0

/--
Trace-based extraction of a quaternion from a 3x3 rotation basis given by
rows m00 m01 m02 / m10 m11 m12 / m20 m21 m22.  This is the shared
matrix-to-quaternion code of updateHeadFromMatrix (src/polyfill.js lines
249-284) and computeJointOrientation (lines 1023-1058): the trace-positive
branch, else the branch for the largest of m00, m11, m22.
-/
def quatFromBasis (m00 m01 m02 m10 m11 m12 m20 m21 m22 : ℝ) : Quat :=
  let trace := m00 + m11 + m22
  if trace > 0 then
    let s := 0.5 / Real.sqrt (trace + 1.0)
    ⟨(m21 - m12) * s, (m02 - m20) * s, (m10 - m01) * s, 0.25 / s⟩
  else if m00 > m11 ∧ m00 > m22 then
    let s := 2.0 * Real.sqrt (1.0 + m00 - m11 - m22)
    ⟨0.25 * s, (m01 + m10) / s, (m02 + m20) / s, (m21 - m12) / s⟩
  else if m11 > m22 then
    let s := 2.0 * Real.sqrt (1.0 + m11 - m00 - m22)
    ⟨(m01 + m10) / s, 0.25 * s, (m12 + m21) / s, (m02 - m20) / s⟩
  else
    let s := 2.0 * Real.sqrt (1.0 + m22 - m00 - m11)
    ⟨(m02 + m20) / s, (m12 + m21) / s, 0.25 * s, (m10 - m01) / s⟩

/--
Raw quaternion extraction from a column-major 4x4 matrix, reading the
upper-left 3x3 block exactly as updateHeadFromMatrix does
(src/polyfill.js lines 245-247): row r, column c entry is m at c*4+r.
-/
def extractRawQuat (m : ℕ → ℝ) : Quat :=
  quatFromBasis (m 0) (m 4) (m 8) (m 1) (m 5) (m 9) (m 2) (m 6) (m 10)

/-- Componentwise division of a quaternion by its norm, as in the
normalization step of updateHeadFromMatrix (src/polyfill.js lines 287-291,
without the mirror sign flip on x). -/
def quaternionFromRotationMatrix (m : ℕ → ℝ) : Quat :=
  let q := extractRawQuat m
  let len := quatNorm q
  ⟨q.x / len, q.y / len, q.z / len, q.w / len⟩

/-- Entry 0 of the rigid-transform matrix. -/
lemma rigidMatrix_e0 (p : Vec3) (q : Quat) :
    rigidMatrix p q 0 = 1 - (q.y * (q.y + q.y) + q.z * (q.z + q.z)) := rfl

/-- Entry 1 of the rigid-transform matrix. -/
lemma rigidMatrix_e1 (p : Vec3) (q : Quat) :
    rigidMatrix p q 1 = q.x * (q.y + q.y) + q.w * (q.z + q.z) := rfl

/-- Entry 2 of the rigid-transform matrix. -/
lemma rigidMatrix_e2 (p : Vec3) (q : Quat) :
    rigidMatrix p q 2 = q.x * (q.z + q.z) - q.w * (q.y + q.y) := rfl

/-- Entry 4 of the rigid-transform matrix. -/
lemma rigidMatrix_e4 (p : Vec3) (q : Quat) :
    rigidMatrix p q 4 = q.x * (q.y + q.y) - q.w * (q.z + q.z) := rfl

/-- Entry 5 of the rigid-transform matrix. -/
lemma rigidMatrix_e5 (p : Vec3) (q : Quat) :
    rigidMatrix p q 5 = 1 - (q.x * (q.x + q.x) + q.z * (q.z + q.z)) := rfl

/-- Entry 6 of the rigid-transform matrix. -/
lemma rigidMatrix_e6 (p : Vec3) (q : Quat) :
    rigidMatrix p q 6 = q.y * (q.z + q.z) + q.w * (q.x + q.x) := rfl

/-- Entry 8 of the rigid-transform matrix. -/
lemma rigidMatrix_e8 (p : Vec3) (q : Quat) :
    rigidMatrix p q 8 = q.x * (q.z + q.z) + q.w * (q.y + q.y) := rfl

/-- Entry 9 of the rigid-transform matrix. -/
lemma rigidMatrix_e9 (p : Vec3) (q : Quat) :
    rigidMatrix p q 9 = q.y * (q.z + q.z) - q.w * (q.x + q.x) := rfl

/-- Entry 10 of the rigid-transform matrix. -/
lemma rigidMatrix_e10 (p : Vec3) (q : Quat) :
    rigidMatrix p q 10 = 1 - (q.x * (q.x + q.x) + q.y * (q.y + q.y)) := rfl

/--
Branch analysis of the trace-based extraction applied to the rotation
block built from a unit quaternion: in every branch the raw extracted
quaternion is exactly the input scaled by a sign. -/
lemma quatFromBasis_rotationBlock (x y z w : ℝ)
    (hq : x ^ 2 + y ^ 2 + z ^ 2 + w ^ 2 = 1) :
    ∃ c : ℝ, (c = 1 ∨ c = -1) ∧
      quatFromBasis
        (1 - (y * (y + y) + z * (z + z))) (x * (y + y) - w * (z + z))
        (x * (z + z) + w * (y + y)) (x * (y + y) + w * (z + z))
        (1 - (x * (x + x) + z * (z + z))) (y * (z + z) - w * (x + x))
        (x * (z + z) - w * (y + y)) (y * (z + z) + w * (x + x))
        (1 - (x * (x + x) + y * (y + y)))
        = ⟨c * x, c * y, c * z, c * w⟩ := by
  simp only [quatFromBasis]
  split_ifs with h1 h2 h3
  · -- trace-positive branch: the sign is the sign of w
    have key : 1 - (y * (y + y) + z * (z + z)) + (1 - (x * (x + x) + z * (z + z))) +
        (1 - (x * (x + x) + y * (y + y))) + 1.0 = (2 * w) ^ 2 := by
      linear_combination (-4 : ℝ) * hq
    rw [key, Real.sqrt_sq_eq_abs]
    have hww : 0 < w ^ 2 := by nlinarith [h1, key]
    have hw : w ≠ 0 := by
      intro h0
      rw [h0] at hww
      simp at hww
    rcases hw.lt_or_lt with hneg | hpos
    · have habs : |2 * w| = -(2 * w) := abs_of_neg (by linarith)
      rw [habs]
      have hne : -(2 * w) ≠ 0 := by intro h; apply hw; linarith [neg_eq_zero.mp h]
      refine ⟨-1, Or.inr rfl, ?_⟩
      simp only [Quat.mk.injEq]
      refine ⟨?_, ?_, ?_, ?_⟩ <;> field_simp <;> ring
    · have habs : |2 * w| = 2 * w := abs_of_pos (by linarith)
      rw [habs]
      have hne : 2 * w ≠ 0 := by positivity
      refine ⟨1, Or.inl rfl, ?_⟩
      simp only [Quat.mk.injEq]
      refine ⟨?_, ?_, ?_, ?_⟩ <;> field_simp <;> ring
  · -- m00-largest branch: the sign is the sign of x
    have key : 1.0 + (1 - (y * (y + y) + z * (z + z))) - (1 - (x * (x + x) + z * (z + z))) -
        (1 - (x * (x + x) + y * (y + y))) = (2 * x) ^ 2 := by ring
    rw [key, Real.sqrt_sq_eq_abs]
    have hx2 : y ^ 2 < x ^ 2 := by nlinarith [h2.1]
    have hx : x ≠ 0 := by
      intro h0
      rw [h0] at hx2
      nlinarith [sq_nonneg y]
    rcases hx.lt_or_lt with hneg | hpos
    · have habs : |2 * x| = -(2 * x) := abs_of_neg (by linarith)
      rw [habs]
      have hne : (2 : ℝ) * x ≠ 0 := by
        intro h; exact hx (by linarith [mul_eq_zero.mp h])
      refine ⟨-1, Or.inr rfl, ?_⟩
      simp only [Quat.mk.injEq]
      refine ⟨by ring, ?_, ?_, ?_⟩ <;> field_simp <;> ring
    · have habs : |2 * x| = 2 * x := abs_of_pos (by linarith)
      rw [habs]
      have hne : (2 : ℝ) * x ≠ 0 := by positivity
      refine ⟨1, Or.inl rfl, ?_⟩
      simp only [Quat.mk.injEq]
      refine ⟨by ring, ?_, ?_, ?_⟩ <;> field_simp <;> ring
  · -- m11-largest branch: the sign is the sign of y
    have key : 1.0 + (1 - (x * (x + x) + z * (z + z))) - (1 - (y * (y + y) + z * (z + z))) -
        (1 - (x * (x + x) + y * (y + y))) = (2 * y) ^ 2 := by ring
    rw [key, Real.sqrt_sq_eq_abs]
    have hy2 : z ^ 2 < y ^ 2 := by nlinarith [h3]
    have hy : y ≠ 0 := by
      intro h0
      rw [h0] at hy2
      nlinarith [sq_nonneg z]
    rcases hy.lt_or_lt with hneg | hpos
    · have habs : |2 * y| = -(2 * y) := abs_of_neg (by linarith)
      rw [habs]
      have hne : (2 : ℝ) * y ≠ 0 := by
        intro h; exact hy (by linarith [mul_eq_zero.mp h])
      refine ⟨-1, Or.inr rfl, ?_⟩
      simp only [Quat.mk.injEq]
      refine ⟨?_, by ring, ?_, ?_⟩ <;> field_simp <;> ring
    · have habs : |2 * y| = 2 * y := abs_of_pos (by linarith)
      rw [habs]
      have hne : (2 : ℝ) * y ≠ 0 := by positivity
      refine ⟨1, Or.inl rfl, ?_⟩
      simp only [Quat.mk.injEq]
      refine ⟨?_, by ring, ?_, ?_⟩ <;> field_simp <;> ring
  · -- final branch: the sign is the sign of z
    have key : 1.0 + (1 - (x * (x + x) + y * (y + y))) - (1 - (y * (y + y) + z * (z + z))) -
        (1 - (x * (x + x) + z * (z + z))) = (2 * z) ^ 2 := by ring
    rw [key, Real.sqrt_sq_eq_abs]
    have hz : z ≠ 0 := by
      intro hz0
      have hy0 : y = 0 := by nlinarith [not_lt.mp h3]
      have hx0 : x = 0 := by
        rcases not_and_or.mp h2 with h | h
        · nlinarith [not_lt.mp h]
        · nlinarith [not_lt.mp h]
      apply h1
      rw [hx0, hy0, hz0]
      norm_num
    rcases hz.lt_or_lt with hneg | hpos
    · have habs : |2 * z| = -(2 * z) := abs_of_neg (by linarith)
      rw [habs]
      have hne : (2 : ℝ) * z ≠ 0 := by
        intro h; exact hz (by linarith [mul_eq_zero.mp h])
      refine ⟨-1, Or.inr rfl, ?_⟩
      simp only [Quat.mk.injEq]
      refine ⟨?_, ?_, by ring, ?_⟩ <;> field_simp <;> ring
    · have habs : |2 * z| = 2 * z := abs_of_pos (by linarith)
      rw [habs]
      have hne : (2 : ℝ) * z ≠ 0 := by positivity
      refine ⟨1, Or.inl rfl, ?_⟩
      simp only [Quat.mk.injEq]
      refine ⟨?_, ?_, by ring, ?_⟩ <;> field_simp <;> ring

/-- The raw extraction recovers a unit quaternion up to a sign factor. -/
lemma extractRawQuat_rigidMatrix (p : Vec3) (q : Quat) (hq : unitQuat q) :
    ∃ c : ℝ, (c = 1 ∨ c = -1) ∧
      extractRawQuat (rigidMatrix p q) = ⟨c * q.x, c * q.y, c * q.z, c * q.w⟩ := by
  have hq2 : q.x ^ 2 + q.y ^ 2 + q.z ^ 2 + q.w ^ 2 = 1 := hq
  have h := quatFromBasis_rotationBlock q.x q.y q.z q.w hq2
  simpa only [extractRawQuat, rigidMatrix_e0, rigidMatrix_e1, rigidMatrix_e2,
    rigidMatrix_e4, rigidMatrix_e5, rigidMatrix_e6, rigidMatrix_e8,
    rigidMatrix_e9, rigidMatrix_e10] using h

/-- Norm of a sign-scaled unit quaternion is 1. -/
lemma quatNorm_signScaled (c : ℝ) (q : Quat) (hc : c = 1 ∨ c = -1)
    (hq : unitQuat q) : quatNorm ⟨c * q.x, c * q.y, c * q.z, c * q.w⟩ = 1 := by
  have hq2 : q.x ^ 2 + q.y ^ 2 + q.z ^ 2 + q.w ^ 2 = 1 := hq
  have hsum : c * q.x * (c * q.x) + c * q.y * (c * q.y) + c * q.z * (c * q.z) +
      c * q.w * (c * q.w) = 1 := by
    rcases hc with rfl | rfl <;> linear_combination hq2
  simp only [quatNorm]
  rw [hsum, Real.sqrt_one]

/--
C1: for every unit quaternion q, building the column-major rotation matrix
of q and then extracting a quaternion with the trace-based routine (result
normalized) yields exactly q or its negation. -/
theorem quaternion_matrix_roundtrip_up_to_sign (p : Vec3) (q : Quat)
    (hq : unitQuat q) :
    quaternionFromRotationMatrix (rigidMatrix p q) = q ∨
      quaternionFromRotationMatrix (rigidMatrix p q) = q.neg := by
  obtain ⟨c, hc, hE⟩ := extractRawQuat_rigidMatrix p q hq
  have hN := quatNorm_signScaled c q hc hq
  simp only [quaternionFromRotationMatrix, hE, hN]
  rcases hc with rfl | rfl
  · left
    ext <;> simp
  · right
    ext <;> simp [Quat.neg]

/-- Witness for C1 at the identity quaternion and zero translation. -/
theorem quaternion_matrix_roundtrip_up_to_sign_witness :
    unitQuat Quat.ident ∧
      (quaternionFromRotationMatrix (rigidMatrix ⟨0, 0, 0⟩ Quat.ident) = Quat.ident ∨
        quaternionFromRotationMatrix (rigidMatrix ⟨0, 0, 0⟩ Quat.ident) = Quat.ident.neg) :=
  ⟨by simp [unitQuat, Quat.sumSq, Quat.ident],
    quaternion_matrix_roundtrip_up_to_sign ⟨0, 0, 0⟩ Quat.ident
      (by simp [unitQuat, Quat.sumSq, Quat.ident])⟩

/-- Linear interpolation, lerp(a, b, t) = a + (b - a) * t
(src/polyfill.js lines 500-504). -/
def lerp (a b t : ℝ) : ℝ := a + (b - a) * t

/-- config.smoothing (src/polyfill.js line 43). -/
def smoothing : ℝ := 0.7

/-- config.standingHeight, standing eye height in meters
(src/polyfill.js line 44). -/
def standingHeight : ℝ := 1.8

/-- config.positionScale (src/polyfill.js line 41). -/
def positionScale : ℝ := 0.5

/-- config.depthScale (src/polyfill.js line 42). -/
def depthScale : ℝ := 0.3

/-- The mutable head-pose state: headPosition and headRotation
(src/polyfill.js lines 34-35). -/
structure HeadState where
  position : Vec3
  rotation : Quat

/-- The initial head state: position (0, 0, -0.5), identity rotation. -/
def initialHeadState : HeadState := ⟨⟨0, 0, -0.5⟩, Quat.ident⟩

/-- Componentwise lerp of quaternions, as applied to headRotation
(src/polyfill.js lines 294-297). -/
def lerpQuat (a b : Quat) (t : ℝ) : Quat :=
  ⟨lerp a.x b.x t, lerp a.y b.y t, lerp a.z b.z t, lerp a.w b.w t⟩

/-- The renormalization after the lerp (src/polyfill.js lines 300-304). -/
def renormalizeQuat (q : Quat) : Quat :=
  let rlen := Real.sqrt (q.x ^ 2 + q.y ^ 2 + q.z ^ 2 + q.w ^ 2)
  ⟨q.x / rlen, q.y / rlen, q.z / rlen, q.w / rlen⟩

/-- The smoothing target quaternion of updateHeadFromMatrix: the raw
extraction normalized, with the x component sign-flipped for the mirrored
camera view (src/polyfill.js lines 286-291). -/
def targetQuat (m : ℕ → ℝ) : Quat :=
  let q := extractRawQuat m
  let len := quatNorm q
  ⟨-q.x / len, q.y / len, q.z / len, q.w / len⟩

/-- updateHeadFromMatrix (src/polyfill.js lines 221-306): lerp-smooth the
position toward the scaled translation column, lerp-smooth the rotation
toward the extracted target quaternion, then renormalize. -/
def updateHeadFromMatrix (m : ℕ → ℝ) (s : HeadState) : HeadState :=
  { position := ⟨lerp s.position.x (-(m 12) * 0.02) (1 - smoothing),
                 lerp s.position.y (-(m 13) * 0.02) (1 - smoothing),
                 lerp s.position.z (-(m 14 + 50) * 0.02) (1 - smoothing)⟩,
    rotation := renormalizeQuat (lerpQuat s.rotation (targetQuat m) (1 - smoothing)) }

/-- updateHeadFromLandmarks (src/polyfill.js lines 308-320): the fallback
path derives a position from the nose landmark (index 1) and does not touch
the rotation. -/
def updateHeadFromLandmarks (landmarks : List Vec3) (s : HeadState) : HeadState :=
  let nose := landmarks.getD 1 ⟨0, 0, 0⟩
  { position := ⟨lerp s.position.x (-(nose.x - 0.5) * positionScale) (1 - smoothing),
                 lerp s.position.y (-(nose.y - 0.5) * positionScale) (1 - smoothing),
                 lerp s.position.z (-0.5 + nose.z * depthScale) (1 - smoothing)⟩,
    rotation := s.rotation }

/-- One head-pose update: either the facial-matrix path or the landmark
fallback path (the two branches of processFrame, src/polyfill.js
lines 180-188). -/
inductive HeadUpdate where
  | fromMatrix (m : ℕ → ℝ)
  | fromLandmarks (landmarks : List Vec3)

/-- Dispatch one head update. -/
def applyHeadUpdate : HeadUpdate → HeadState → HeadState
  | .fromMatrix m, s => updateHeadFromMatrix m s
  | .fromLandmarks l, s => updateHeadFromLandmarks l s

/-- Apply a sequence of head updates in order. -/
def applyHeadUpdates (us : List HeadUpdate) (s : HeadState) : HeadState :=
  us.foldl (fun st u => applyHeadUpdate u st) s

/-- The smoothing target quaternion has squared norm 0 (when the raw
extraction degenerates to zero) or 1 (the generic, normalized case). -/
lemma targetQuat_sumSq (m : ℕ → ℝ) :
    (targetQuat m).sumSq = 0 ∨ (targetQuat m).sumSq = 1 := by
  simp only [targetQuat, Quat.sumSq, quatNorm]
  set q := extractRawQuat m with hqdef
  have hS0 : 0 ≤ q.x * q.x + q.y * q.y + q.z * q.z + q.w * q.w :=
    add_nonneg (add_nonneg (add_nonneg (mul_self_nonneg _) (mul_self_nonneg _))
      (mul_self_nonneg _)) (mul_self_nonneg _)
  rcases eq_or_lt_of_le hS0 with hz | hpos
  · left
    rw [← hz, Real.sqrt_zero]
    simp
  · right
    have hrt : 0 < Real.sqrt (q.x * q.x + q.y * q.y + q.z * q.z + q.w * q.w) :=
      Real.sqrt_pos.mpr hpos
    have hr : Real.sqrt (q.x * q.x + q.y * q.y + q.z * q.z + q.w * q.w) ≠ 0 :=
      ne_of_gt hrt
    have h2 : Real.sqrt (q.x * q.x + q.y * q.y + q.z * q.z + q.w * q.w) ^ 2 =
        q.x * q.x + q.y * q.y + q.z * q.z + q.w * q.w := Real.sq_sqrt hS0
    field_simp
    ring

/-- Renormalizing a quaternion of positive squared norm yields a unit
quaternion. -/
lemma renormalizeQuat_unit (r : Quat)
    (hr : 0 < r.x ^ 2 + r.y ^ 2 + r.z ^ 2 + r.w ^ 2) :
    unitQuat (renormalizeQuat r) := by
  simp only [renormalizeQuat, unitQuat, Quat.sumSq]
  have hrt : 0 < Real.sqrt (r.x ^ 2 + r.y ^ 2 + r.z ^ 2 + r.w ^ 2) :=
    Real.sqrt_pos.mpr hr
  have hne : Real.sqrt (r.x ^ 2 + r.y ^ 2 + r.z ^ 2 + r.w ^ 2) ≠ 0 := ne_of_gt hrt
  have h2 : Real.sqrt (r.x ^ 2 + r.y ^ 2 + r.z ^ 2 + r.w ^ 2) ^ 2 =
      r.x ^ 2 + r.y ^ 2 + r.z ^ 2 + r.w ^ 2 := Real.sq_sqrt (le_of_lt hr)
  field_simp

/-- The lerp of a unit quaternion toward a target of squared norm at most 1
with weight 0.3 on the target has positive squared norm, so the subsequent
renormalization is well defined. -/
lemma lerpQuat_sumSq_pos (o t : Quat) (ho : unitQuat o)
    (ht : t.sumSq = 0 ∨ t.sumSq = 1) :
    0 < (lerpQuat o t (1 - smoothing)).x ^ 2 + (lerpQuat o t (1 - smoothing)).y ^ 2 +
      (lerpQuat o t (1 - smoothing)).z ^ 2 + (lerpQuat o t (1 - smoothing)).w ^ 2 := by
  have ho2 : o.x ^ 2 + o.y ^ 2 + o.z ^ 2 + o.w ^ 2 = 1 := ho
  have hCS : (o.x * t.x + o.y * t.y + o.z * t.z + o.w * t.w) ^ 2 ≤
      (o.x ^ 2 + o.y ^ 2 + o.z ^ 2 + o.w ^ 2) * (t.x ^ 2 + t.y ^ 2 + t.z ^ 2 + t.w ^ 2) := by
    nlinarith [sq_nonneg (o.x * t.y - o.y * t.x), sq_nonneg (o.x * t.z - o.z * t.x),
      sq_nonneg (o.x * t.w - o.w * t.x), sq_nonneg (o.y * t.z - o.z * t.y),
      sq_nonneg (o.y * t.w - o.w * t.y), sq_nonneg (o.z * t.w - o.w * t.z)]
  simp only [lerpQuat, lerp, smoothing]
  rcases ht with hT | hT
  · have hT2 : t.x ^ 2 + t.y ^ 2 + t.z ^ 2 + t.w ^ 2 = 0 := hT
    have hd2 : (o.x * t.x + o.y * t.y + o.z * t.z + o.w * t.w) ^ 2 ≤ 0 := by
      nlinarith [hCS, ho2, hT2]
    have hd : o.x * t.x + o.y * t.y + o.z * t.z + o.w * t.w = 0 := by
      nlinarith [sq_nonneg (o.x * t.x + o.y * t.y + o.z * t.z + o.w * t.w)]
    nlinarith [ho2, hT2, hd]
  · have hT2 : t.x ^ 2 + t.y ^ 2 + t.z ^ 2 + t.w ^ 2 = 1 := hT
    nlinarith [hCS, ho2, hT2,
      sq_nonneg (o.x * t.x + o.y * t.y + o.z * t.z + o.w * t.w + 1)]

/-- One facial-matrix head update keeps the orientation unit-length. -/
lemma updateHeadFromMatrix_unit (m : ℕ → ℝ) (s : HeadState)
    (hs : unitQuat s.rotation) : unitQuat (updateHeadFromMatrix m s).rotation := by
  exact renormalizeQuat_unit _ (lerpQuat_sumSq_pos s.rotation (targetQuat m) hs
    (targetQuat_sumSq m))

/--
C4: starting from a unit head orientation, the orientation remains
unit-length after every head-pose update, for arbitrary sequences of
facial-matrix and landmark-fallback updates; and the landmark fallback path
leaves the orientation unchanged. -/
theorem head_orientation_unit_invariant :
    (∀ (s : HeadState) (us : List HeadUpdate), unitQuat s.rotation →
      unitQuat (applyHeadUpdates us s).rotation) ∧
    (∀ (landmarks : List Vec3) (s : HeadState),
      (updateHeadFromLandmarks landmarks s).rotation = s.rotation) := by
  constructor
  · intro s us hs
    induction us generalizing s with
    | nil => exact hs
    | cons u rest ih =>
        simp only [applyHeadUpdates, List.foldl_cons]
        cases u with
        | fromMatrix m => exact ih _ (updateHeadFromMatrix_unit m s hs)
        | fromLandmarks l => exact ih _ hs
  · intro l s
    rfl

/-- Witness for C4: one facial-matrix update applied to the initial state. -/
theorem head_orientation_unit_invariant_witness :
    unitQuat initialHeadState.rotation ∧
      unitQuat (applyHeadUpdates
        [HeadUpdate.fromMatrix (rigidMatrix ⟨0, 0, 0⟩ Quat.ident)]
        initialHeadState).rotation :=
  ⟨by simp [unitQuat, Quat.sumSq, initialHeadState, Quat.ident],
    head_orientation_unit_invariant.1 initialHeadState _
      (by simp [unitQuat, Quat.sumSq, initialHeadState, Quat.ident])⟩

/-- Componentwise negation of a vector. -/
def Vec3.neg (v : Vec3) : Vec3 := ⟨-v.x, -v.y, -v.z⟩

/-- Handedness tag of a hand observation. -/
inductive Handedness where
  | left
  | right
  deriving DecidableEq

/-- A hand joint: position plus contact radius (src/polyfill.js line 387). -/
structure Joint where
  position : Vec3
  radius : ℝ

/-- Fallback joint used only as the default of list lookups. -/
def defaultJoint : Joint := ⟨⟨0, 0, 0⟩, 0⟩

/-- The hand observation record returned by processHandLandmarks
(src/polyfill.js lines 478-484). -/
structure HandData where
  joints : List Joint
  visible : Bool
  palmNormal : Vec3
  handedness : Handedness

/-- interpolateJoint (src/polyfill.js lines 487-498). -/
def interpolateJoint (a b : Joint) (t : ℝ) : Joint :=
  ⟨⟨a.position.x + (b.position.x - a.position.x) * t,
    a.position.y + (b.position.y - a.position.y) * t,
    a.position.z + (b.position.z - a.position.z) * t⟩, 0.01⟩

/--
The world position of detector joint i (src/polyfill.js lines 322-389):
the wrist's screen position gives a head-relative anchor, then each joint
is placed relative to the anchor using metric world-landmark offsets when
available, else scaled normalized-landmark offsets. -/
def mpJointPos (head : Vec3) (lm : Fin 21 → Vec3)
    (world : Option (Fin 21 → Vec3)) (i : Fin 21) : Vec3 :=
  let wristScreen := lm 0
  let offsetX := -(wristScreen.x - 0.5) * 1.2
  let offsetY := -(wristScreen.y - 0.5) * 0.8 - 0.3
  let offsetZ := -0.5 - wristScreen.z * 0.3
  let screenX := head.x + offsetX
  let screenY := head.y + standingHeight + offsetY
  let screenZ := head.z + offsetZ
  match world with
  | some w =>
      let relX := (w i).x - (w 0).x
      let relY := (w i).y - (w 0).y
      let relZ := (w i).z - (w 0).z
      ⟨screenX - relX, screenY - relY, screenZ + relZ⟩
  | none =>
      let relX := ((lm i).x - (lm 0).x) * 0.3
      let relY := ((lm i).y - (lm 0).y) * 0.3
      let relZ := ((lm i).z - (lm 0).z) * 0.15
      ⟨screenX - relX, screenY - relY, screenZ + relZ⟩

/-- Detector joint i as pushed onto the joints array
(src/polyfill.js line 387). -/
def mpJoint (head : Vec3) (lm : Fin 21 → Vec3)
    (world : Option (Fin 21 → Vec3)) (i : Fin 21) : Joint :=
  ⟨mpJointPos head lm world i, 0.01⟩

/-- The 25-element WebXR joint array built from the 21 detector joints
(src/polyfill.js lines 391-428), with one synthetic metacarpal per
non-thumb finger interpolated halfway between wrist and first detector
joint. -/
def webxrJoints (head : Vec3) (lm : Fin 21 → Vec3)
    (world : Option (Fin 21 → Vec3)) : List Joint :=
  [mpJoint head lm world 0,
   mpJoint head lm world 1, mpJoint head lm world 2,
   mpJoint head lm world 3, mpJoint head lm world 4,
   interpolateJoint (mpJoint head lm world 0) (mpJoint head lm world 5) 0.5,
   mpJoint head lm world 5, mpJoint head lm world 6,
   mpJoint head lm world 7, mpJoint head lm world 8,
   interpolateJoint (mpJoint head lm world 0) (mpJoint head lm world 9) 0.5,
   mpJoint head lm world 9, mpJoint head lm world 10,
   mpJoint head lm world 11, mpJoint head lm world 12,
   interpolateJoint (mpJoint head lm world 0) (mpJoint head lm world 13) 0.5,
   mpJoint head lm world 13, mpJoint head lm world 14,
   mpJoint head lm world 15, mpJoint head lm world 16,
   interpolateJoint (mpJoint head lm world 0) (mpJoint head lm world 17) 0.5,
   mpJoint head lm world 17, mpJoint head lm world 18,
   mpJoint head lm world 19, mpJoint head lm world 20]

/-- The unnormalized palm normal: cross product of wrist-to-pinky and
wrist-to-index vectors, from WebXR joints 0, 6 and 21, which are detector
joints 0, 5 and 17 (src/polyfill.js lines 430-451). -/
def palmCross (head : Vec3) (lm : Fin 21 → Vec3)
    (world : Option (Fin 21 → Vec3)) : Vec3 :=
  let wrist := (mpJoint head lm world 0).position
  let indexMcp := (mpJoint head lm world 5).position
  let pinkyMcp := (mpJoint head lm world 17).position
  let toIndexX := indexMcp.x - wrist.x
  let toIndexY := indexMcp.y - wrist.y
  let toIndexZ := indexMcp.z - wrist.z
  let toPinkyX := pinkyMcp.x - wrist.x
  let toPinkyY := pinkyMcp.y - wrist.y
  let toPinkyZ := pinkyMcp.z - wrist.z
  ⟨toPinkyY * toIndexZ - toPinkyZ * toIndexY,
   toPinkyZ * toIndexX - toPinkyX * toIndexZ,
   toPinkyX * toIndexY - toPinkyY * toIndexX⟩

/-- The palm normal: the cross product normalized when its norm exceeds
0.0001, else the vertical up fallback; sign-flipped for the left hand
(src/polyfill.js lines 453-476). -/
def palmNormalOf (head : Vec3) (lm : Fin 21 → Vec3)
    (world : Option (Fin 21 → Vec3)) (hnd : Handedness) : Vec3 :=
  let n := palmCross head lm world
  let palmLen := vnorm n
  let base : Vec3 :=
    if palmLen > 0.0001 then ⟨n.x / palmLen, n.y / palmLen, n.z / palmLen⟩
    else ⟨0, 1, 0⟩
  if hnd = Handedness.left then ⟨-base.x, -base.y, -base.z⟩ else base

/-- processHandLandmarks (src/polyfill.js lines 322-485). -/
def processHandLandmarks (head : Vec3) (lm : Fin 21 → Vec3)
    (world : Option (Fin 21 → Vec3)) (hnd : Handedness) : HandData :=
  { joints := webxrJoints head lm world,
    visible := true,
    palmNormal := palmNormalOf head lm world hnd,
    handedness := hnd }

/-- Exact midpoint of two points, as the spec describes the synthetic
metacarpal joints. -/
def midpoint3 (a b : Vec3) : Vec3 := ⟨(a.x + b.x) / 2, (a.y + b.y) / 2, (a.z + b.z) / 2⟩

/--
C3: every processed hand observation has exactly 25 joints, joint 0 is the
processed wrist (detector joint 0), and the synthetic metacarpal joints at
indices 5, 10, 15 and 20 are the exact midpoints of the wrist position and
the respective finger's first detector-joint position (detector indices
5, 9, 13, 17). -/
theorem hand_skeleton_joints_and_midpoints (head : Vec3) (lm : Fin 21 → Vec3)
    (world : Option (Fin 21 → Vec3)) (hnd : Handedness) :
    (processHandLandmarks head lm world hnd).joints.length = 25 ∧
    (processHandLandmarks head lm world hnd).joints.getD 0 defaultJoint =
      mpJoint head lm world 0 ∧
    ((processHandLandmarks head lm world hnd).joints.getD 5 defaultJoint).position =
      midpoint3 (mpJointPos head lm world 0) (mpJointPos head lm world 5) ∧
    ((processHandLandmarks head lm world hnd).joints.getD 10 defaultJoint).position =
      midpoint3 (mpJointPos head lm world 0) (mpJointPos head lm world 9) ∧
    ((processHandLandmarks head lm world hnd).joints.getD 15 defaultJoint).position =
      midpoint3 (mpJointPos head lm world 0) (mpJointPos head lm world 13) ∧
    ((processHandLandmarks head lm world hnd).joints.getD 20 defaultJoint).position =
      midpoint3 (mpJointPos head lm world 0) (mpJointPos head lm world 17) := by
  refine ⟨rfl, rfl, ?_, ?_, ?_, ?_⟩ <;>
    · show (interpolateJoint (mpJoint head lm world 0) _ 0.5).position = _
      ext <;> simp only [interpolateJoint, midpoint3, mpJoint] <;> ring

/-- Norm of a componentwise-negated vector. -/
lemma vnorm_neg3 (a b c : ℝ) : vnorm ⟨-a, -b, -c⟩ = vnorm ⟨a, b, c⟩ := by
  simp only [vnorm]
  norm_num

/-- Norm of a vector with the last two components negated. -/
lemma vnorm_neg_yz (a b c : ℝ) : vnorm ⟨a, -b, -c⟩ = vnorm ⟨a, b, c⟩ := by
  simp only [vnorm]
  norm_num

/-- Normalizing a vector of positive norm by its own norm gives a unit
vector. -/
lemma vnorm_div_self (n : Vec3) (h : 0 < vnorm n) :
    vnorm ⟨n.x / vnorm n, n.y / vnorm n, n.z / vnorm n⟩ = 1 := by
  have hS : 0 < n.x * n.x + n.y * n.y + n.z * n.z := Real.sqrt_pos.mp h
  have hmul : Real.sqrt (n.x * n.x + n.y * n.y + n.z * n.z) *
      Real.sqrt (n.x * n.x + n.y * n.y + n.z * n.z) =
      n.x * n.x + n.y * n.y + n.z * n.z := Real.mul_self_sqrt (le_of_lt hS)
  have hne : Real.sqrt (n.x * n.x + n.y * n.y + n.z * n.z) ≠ 0 :=
    ne_of_gt (Real.sqrt_pos.mpr hS)
  simp only [vnorm] at *
  have hsum : n.x / Real.sqrt (n.x * n.x + n.y * n.y + n.z * n.z) *
      (n.x / Real.sqrt (n.x * n.x + n.y * n.y + n.z * n.z)) +
      n.y / Real.sqrt (n.x * n.x + n.y * n.y + n.z * n.z) *
      (n.y / Real.sqrt (n.x * n.x + n.y * n.y + n.z * n.z)) +
      n.z / Real.sqrt (n.x * n.x + n.y * n.y + n.z * n.z) *
      (n.z / Real.sqrt (n.x * n.x + n.y * n.y + n.z * n.z)) = 1 := by
    field_simp
  rw [hsum, Real.sqrt_one]

/-- Mirror image about the x axis. -/
def mirrorX (v : Vec3) : Vec3 := ⟨-v.x, v.y, v.z⟩

/-- Mirror image of a world-landmark set. -/
def mirrorWorld (w : Fin 21 → Vec3) : Fin 21 → Vec3 := fun i => mirrorX (w i)

/-- The palm cross product of a mirrored world-landmark set is the
negated mirror of the original cross product, independently of the head
position and screen landmarks (which cancel in the differences). -/
lemma palmCross_mirrorWorld (head head2 : Vec3) (lm lm2 : Fin 21 → Vec3)
    (w : Fin 21 → Vec3) :
    palmCross head2 lm2 (some (mirrorWorld w)) =
      ⟨(palmCross head lm (some w)).x, -(palmCross head lm (some w)).y,
        -(palmCross head lm (some w)).z⟩ := by
  ext <;> simp only [palmCross, mpJoint, mpJointPos, mirrorWorld, mirrorX] <;> ring

/--
C7: whenever the palm cross product has norm above the 0.0001 threshold,
the computed palm normal is a unit vector (for either handedness);
the left-hand palm normal is always the sign-reversal of the right-hand
normal computed on the same landmarks; and for a left hand whose world
landmarks are the mirror image of a right hand's, the left palm normal is
the mirror of the right hand's palm normal. -/
theorem palm_normal_unit_and_mirror :
    (∀ (head : Vec3) (lm : Fin 21 → Vec3) (world : Option (Fin 21 → Vec3))
        (hnd : Handedness), 0.0001 < vnorm (palmCross head lm world) →
      vnorm (processHandLandmarks head lm world hnd).palmNormal = 1) ∧
    (∀ (head : Vec3) (lm : Fin 21 → Vec3) (w : Fin 21 → Vec3),
      (processHandLandmarks head lm (some (mirrorWorld w)) Handedness.left).palmNormal =
        Vec3.neg ((processHandLandmarks head lm (some (mirrorWorld w))
          Handedness.right).palmNormal)) ∧
    (∀ (head head2 : Vec3) (lm lm2 : Fin 21 → Vec3) (w : Fin 21 → Vec3),
      0.0001 < vnorm (palmCross head lm (some w)) →
      (processHandLandmarks head2 lm2 (some (mirrorWorld w)) Handedness.left).palmNormal =
        mirrorX ((processHandLandmarks head lm (some w) Handedness.right).palmNormal)) := by
  refine ⟨?_, ?_, ?_⟩
  · intro head lm world hnd h
    have h0 : 0 < vnorm (palmCross head lm world) := lt_trans (by norm_num) h
    simp only [processHandLandmarks, palmNormalOf, if_pos h]
    cases hnd with
    | left =>
        simp only [reduceCtorEq, if_true, if_false, reduceIte]
        exact (vnorm_neg3 _ _ _).trans (vnorm_div_self _ h0)
    | right =>
        simp only [reduceCtorEq, if_true, if_false, reduceIte]
        exact vnorm_div_self _ h0
  · intro head lm w
    simp only [processHandLandmarks, palmNormalOf, Vec3.neg, reduceCtorEq, reduceIte]
  · intro head head2 lm lm2 w h
    have hcross := palmCross_mirrorWorld head head2 lm lm2 w
    have hv : vnorm (palmCross head2 lm2 (some (mirrorWorld w))) =
        vnorm (palmCross head lm (some w)) := by
      rw [hcross]
      exact vnorm_neg_yz _ _ _
    have hm : 0.0001 < vnorm (palmCross head2 lm2 (some (mirrorWorld w))) := by
      rw [hv]; exact h
    simp only [processHandLandmarks, palmNormalOf, if_pos hm, if_pos h,
      reduceCtorEq, reduceIte]
    rw [hcross]
    have hvn : vnorm ⟨(palmCross head lm (some w)).x, -(palmCross head lm (some w)).y,
        -(palmCross head lm (some w)).z⟩ = vnorm (palmCross head lm (some w)) :=
      vnorm_neg_yz _ _ _
    rw [hvn]
    ext <;> simp [mirrorX] <;> ring

/-- All-zero normalized landmark set used in concrete instances. -/
def zeroLandmarks : Fin 21 → Vec3 := fun _ => ⟨0, 0, 0⟩

/-- A concrete nondegenerate world-landmark set: index metacarpal offset
(0, -1, 0) and pinky metacarpal offset (-1, 0, 0) from the wrist. -/
def witnessWorld : Fin 21 → Vec3 := fun i =>
  if i = 5 then ⟨0, -1, 0⟩ else if i = 17 then ⟨-1, 0, 0⟩ else ⟨0, 0, 0⟩

/-- The palm cross product of the concrete landmark set is (0, 0, 1). -/
lemma palmCross_witnessWorld :
    palmCross ⟨0, 0, 0⟩ zeroLandmarks (some witnessWorld) = ⟨0, 0, 1⟩ := by
  ext <;> simp [palmCross, mpJoint, mpJointPos, witnessWorld, zeroLandmarks]

/-- The concrete landmark set is nondegenerate. -/
lemma palmCross_witnessWorld_nondegenerate :
    0.0001 < vnorm (palmCross ⟨0, 0, 0⟩ zeroLandmarks (some witnessWorld)) := by
  rw [palmCross_witnessWorld]
  simp only [vnorm]
  norm_num

/-- Witness for C7 at the concrete nondegenerate landmark set. -/
theorem palm_normal_unit_and_mirror_witness :
    0.0001 < vnorm (palmCross ⟨0, 0, 0⟩ zeroLandmarks (some witnessWorld)) ∧
    vnorm (processHandLandmarks ⟨0, 0, 0⟩ zeroLandmarks (some witnessWorld)
      Handedness.right).palmNormal = 1 ∧
    (processHandLandmarks ⟨0, 0, 0⟩ zeroLandmarks (some (mirrorWorld witnessWorld))
        Handedness.left).palmNormal =
      mirrorX ((processHandLandmarks ⟨0, 0, 0⟩ zeroLandmarks (some witnessWorld)
        Handedness.right).palmNormal) :=
  ⟨palmCross_witnessWorld_nondegenerate,
    palm_normal_unit_and_mirror.1 _ _ _ _ palmCross_witnessWorld_nondegenerate,
    palm_normal_unit_and_mirror.2.2 _ _ _ _ _ palmCross_witnessWorld_nondegenerate⟩

/-- Select events raised by the pinch-gesture state machine. -/
inductive GEvent where
  | selectstart
  | selectend
  deriving DecidableEq

/-- The pinch threshold, this._pinchThreshold = 0.05
(src/polyfill.js line 1363). -/
def pinchThreshold : ℝ := 0.05

/-- The thumb-tip/index-tip distance computed by _detectGestures from
joints 4 and 9 (src/polyfill.js lines 1438-1445). -/
def pinchDist (joints : List Joint) : ℝ :=
  let thumbTip := (joints.getD 4 defaultJoint).position
  let indexTip := (joints.getD 9 defaultJoint).position
  Real.sqrt ((thumbTip.x - indexTip.x) ^ 2 + (thumbTip.y - indexTip.y) ^ 2 +
    (thumbTip.z - indexTip.z) ^ 2)

/--
One tick of XRInputSource._detectGestures (src/polyfill.js lines
1433-1461): skipped when fewer than 10 joints; otherwise selectstart is
dispatched on a downward crossing of the pinch threshold and selectend on
an upward crossing, with the pinching flag updated accordingly. -/
def detectGestures (isPinching : Bool) (hd : HandData) : Bool × List GEvent :=
  if hd.joints.length < 10 then (isPinching, [])
  else
    if pinchDist hd.joints < pinchThreshold then
      if isPinching then (true, []) else (true, [GEvent.selectstart])
    else
      if isPinching then (false, [GEvent.selectend]) else (false, [])

/-- Run the gesture detector over a sequence of per-tick hand updates,
collecting the events dispatched on each tick. -/
def runGestures (b : Bool) (hs : List HandData) : Bool × List (List GEvent) :=
  match hs with
  | [] => (b, [])
  | h :: t =>
      let r := detectGestures b h
      let rest := runGestures r.1 t
      (rest.1, r.2 :: rest.2)

/-- While the distance stays at or above the threshold and the flag is
down, no event fires is and the flag stays down. -/
lemma runGestures_all_far (hs : List HandData)
    (hfar : ∀ h ∈ hs, ¬ h.joints.length < 10 ∧
      pinchThreshold ≤ pinchDist h.joints) :
    runGestures false hs = (false, List.replicate hs.length []) := by
  induction hs with
  | nil => rfl
  | cons a t ih =>
      obtain ⟨hlen, hd⟩ := hfar a (List.mem_cons_self a t)
      have hstep : detectGestures false a = (false, []) := by
        simp only [detectGestures, if_neg hlen, if_neg (not_lt.mpr hd)]
        rfl
      simp only [runGestures, hstep,
        ih (fun h hm => hfar h (List.mem_cons_of_mem a hm)),
        List.length_cons, List.replicate_succ]

/-- While the distance stays below the threshold and the flag is up, no
event fires and the flag stays up. -/
lemma runGestures_all_near (hs : List HandData)
    (hnear : ∀ h ∈ hs, ¬ h.joints.length < 10 ∧
      pinchDist h.joints < pinchThreshold) :
    runGestures true hs = (true, List.replicate hs.length []) := by
  induction hs with
  | nil => rfl
  | cons a t ih =>
      obtain ⟨hlen, hd⟩ := hnear a (List.mem_cons_self a t)
      have hstep : detectGestures true a = (true, []) := by
        simp only [detectGestures, if_neg hlen, if_pos hd]
        rfl
      simp only [runGestures, hstep,
        ih (fun h hm => hnear h (List.mem_cons_of_mem a hm)),
        List.length_cons, List.replicate_succ]

/-- Running the gesture machine over an appended list composes the two
runs, threading the pinching flag. -/
lemma runGestures_append (b : Bool) (xs ys : List HandData) :
    runGestures b (xs ++ ys) =
      ((runGestures (runGestures b xs).1 ys).1,
        (runGestures b xs).2 ++ (runGestures (runGestures b xs).1 ys).2) := by
  induction xs generalizing b with
  | nil => simp [runGestures]
  | cons a t ih => simp [runGestures, ih]

/--
C5: for any per-tick hand sequence in non-hand-tracking mode whose
thumb-tip/index-tip distance starts at or above the pinch threshold,
crosses below it, stays below, then crosses back above and stays there:
exactly one selectstart fires, on the tick of the downward crossing, then
exactly one selectend on the tick of the upward crossing, and no other
event fires on any other tick. -/
theorem pinch_gesture_single_start_end (A B C : List HandData)
    (hA : ∀ h ∈ A, ¬ h.joints.length < 10 ∧ pinchThreshold ≤ pinchDist h.joints)
    (hB : ∀ h ∈ B, ¬ h.joints.length < 10 ∧ pinchDist h.joints < pinchThreshold)
    (hC : ∀ h ∈ C, ¬ h.joints.length < 10 ∧ pinchThreshold ≤ pinchDist h.joints)
    (hBne : B ≠ []) (hCne : C ≠ []) :
    runGestures false (A ++ B ++ C) =
      (false, List.replicate A.length [] ++
        ([GEvent.selectstart] :: List.replicate (B.length - 1) []) ++
        ([GEvent.selectend] :: List.replicate (C.length - 1) [])) := by
  obtain ⟨b0, B2, rfl⟩ := List.exists_cons_of_ne_nil hBne
  obtain ⟨c0, C2, rfl⟩ := List.exists_cons_of_ne_nil hCne
  have hA1 : runGestures false A = (false, List.replicate A.length []) :=
    runGestures_all_far A hA
  have hb0 := hB b0 (List.mem_cons_self b0 B2)
  have hstepb : detectGestures false b0 = (true, [GEvent.selectstart]) := by
    simp only [detectGestures, if_neg hb0.1, if_pos hb0.2]
    rfl
  have hB2 : runGestures true B2 = (true, List.replicate B2.length []) :=
    runGestures_all_near B2 (fun h hm => hB h (List.mem_cons_of_mem b0 hm))
  have hc0 := hC c0 (List.mem_cons_self c0 C2)
  have hstepc : detectGestures true c0 = (false, [GEvent.selectend]) := by
    simp only [detectGestures, if_neg hc0.1, if_neg (not_lt.mpr hc0.2)]
    rfl
  have hC2 : runGestures false C2 = (false, List.replicate C2.length []) :=
    runGestures_all_far C2 (fun h hm => hC h (List.mem_cons_of_mem c0 hm))
  rw [runGestures_append, runGestures_append, hA1]
  simp only [runGestures, hstepb, hstepc, hB2, hC2, List.length_cons,
    Nat.add_sub_cancel]

/-- A joint at the origin with the fixed 1 cm radius. -/
def pinchJointA : Joint := ⟨⟨0, 0, 0⟩, 0.01⟩

/-- A joint at (1, 0, 0) with the fixed 1 cm radius. -/
def pinchJointB : Joint := ⟨⟨1, 0, 0⟩, 0.01⟩

/-- A concrete hand whose thumb tip and index tip are one meter apart. -/
def farHand : HandData :=
  ⟨[pinchJointA, pinchJointA, pinchJointA, pinchJointA, pinchJointB,
    pinchJointA, pinchJointA, pinchJointA, pinchJointA, pinchJointA],
   true, ⟨0, 1, 0⟩, Handedness.right⟩

/-- A concrete hand whose thumb tip and index tip coincide. -/
def nearHand : HandData :=
  ⟨[pinchJointA, pinchJointA, pinchJointA, pinchJointA, pinchJointA,
    pinchJointA, pinchJointA, pinchJointA, pinchJointA, pinchJointA],
   true, ⟨0, 1, 0⟩, Handedness.right⟩

/-- The far hand's pinch distance is 1. -/
lemma pinchDist_farHand : pinchDist farHand.joints = 1 := by
  simp only [pinchDist, farHand, pinchJointA, pinchJointB,
    List.getD_cons_succ, List.getD_cons_zero]
  norm_num

/-- The near hand's pinch distance is 0. -/
lemma pinchDist_nearHand : pinchDist nearHand.joints = 0 := by
  simp only [pinchDist, nearHand, pinchJointA,
    List.getD_cons_succ, List.getD_cons_zero]
  norm_num

/-- Witness for C5: far tick, near tick, far tick gives exactly one
selectstart then one selectend. -/
theorem pinch_gesture_single_start_end_witness :
    runGestures false ([farHand] ++ [nearHand] ++ [farHand]) =
      (false, [[], [GEvent.selectstart], [GEvent.selectend]]) := by
  have h := pinch_gesture_single_start_end [farHand] [nearHand] [farHand]
    (by
      intro h hm
      rw [List.mem_singleton] at hm
      subst hm
      refine ⟨by norm_num [farHand], ?_⟩
      rw [pinchDist_farHand]
      norm_num [pinchThreshold])
    (by
      intro h hm
      rw [List.mem_singleton] at hm
      subst hm
      refine ⟨by norm_num [nearHand], ?_⟩
      rw [pinchDist_nearHand]
      norm_num [pinchThreshold])
    (by
      intro h hm
      rw [List.mem_singleton] at hm
      subst hm
      refine ⟨by norm_num [farHand], ?_⟩
      rw [pinchDist_farHand]
      norm_num [pinchThreshold])
    (by simp) (by simp)
  simpa using h

/-- XR session modes recognized by isSessionSupported
(src/polyfill.js line 521). -/
inductive XRMode where
  | immersiveVR
  | immersiveAR
  | inlineMode
  deriving DecidableEq

/-- Session request options: whether requiredFeatures or optionalFeatures
includes the hand-tracking feature string (src/polyfill.js lines 572-577). -/
structure SessionOptions where
  requiredHandTracking : Bool
  optionalHandTracking : Bool
  deriving DecidableEq

/-- The render state initialised by the XRSession constructor
(src/polyfill.js lines 556-561); the base layer is tracked as present or
absent. -/
structure RenderState where
  hasBaseLayer : Bool
  depthNear : ℝ
  depthFar : ℝ
  inlineVerticalFieldOfView : ℝ

/-- Reference space type strings (src/polyfill.js lines 765-774). -/
inductive RefType where
  | viewer
  | localSpace
  | localFloor
  | boundedFloor
  deriving DecidableEq

/-- The per-session state of an XRSession (src/polyfill.js lines 549-581):
mode, render state, pending frame callbacks with the incrementing id,
reference-space registry, ended flag and the negotiated hand-tracking
capability. -/
structure XRSessionState where
  mode : XRMode
  renderState : RenderState
  frameCallbacks : List ℕ
  nextCallbackId : ℕ
  referenceSpaces : List RefType
  ended : Bool
  handTrackingEnabled : Bool

/-- The initial render state: no layer, depthNear 0.1, depthFar 1000,
inline field of view pi/2. -/
def initialRenderState : RenderState := ⟨false, 0.1, 1000.0, Real.pi / 2⟩

/-- The session produced by the XRSession constructor. -/
def initialSession (mode : XRMode) (opts : SessionOptions) : XRSessionState :=
  { mode := mode,
    renderState := initialRenderState,
    frameCallbacks := [],
    nextCallbackId := 1,
    referenceSpaces := [],
    ended := false,
    handTrackingEnabled := opts.requiredHandTracking || opts.optionalHandTracking }

/-- The error raised on a conflicting session request: DOMException with
name InvalidStateError (src/polyfill.js line 529). -/
inductive XRErr where
  | invalidState
  deriving DecidableEq

/-- The module-level mutable state around the session singleton:
currentSession and isTracking (src/polyfill.js lines 30-31), whether the
camera video element is live (lines 114-162), whether a frame-loop
iteration is scheduled (lines 632-670), and the number of end events the
session has dispatched (line 628). -/
structure WorldState where
  currentSession : Option XRSessionState
  isTracking : Bool
  cameraActive : Bool
  frameLoopScheduled : Bool
  endEventCount : ℕ

/-- XRSystem.requestSession (src/polyfill.js lines 525-543): throws
InvalidStateError without touching any state when a session is active,
else creates the session, marks tracking on and starts the frame loop. -/
def requestSession (w : WorldState) (mode : XRMode) (opts : SessionOptions) :
    Except XRErr XRSessionState × WorldState :=
  match w.currentSession with
  | some _ => (Except.error XRErr.invalidState, w)
  | none =>
      let s := initialSession mode opts
      (Except.ok s,
       { w with currentSession := some s, isTracking := true,
                frameLoopScheduled := true })

/-- XRSession.end (src/polyfill.js lines 618-630): sets the ended flag,
stops tracking, cancels the scheduled frame-loop iteration, stops the
camera, clears the session singleton and dispatches one end event.  The
method has no already-ended guard, so every call repeats all of this. -/
def endSession (s : XRSessionState) (w : WorldState) :
    XRSessionState × WorldState :=
  ({ s with ended := true },
   { w with isTracking := false,
            frameLoopScheduled := false,
            cameraActive := false,
            currentSession := none,
            endEventCount := w.endEventCount + 1 })

/--
C2: while a session is active, a further requestSession call fails with
InvalidStateError and returns the world completely unchanged (so the
active session's mode, render state, callbacks, reference spaces and ended
flag are untouched and no new session is installed); after end() on the
active session, a subsequent requestSession succeeds and installs a fresh
session. -/
theorem session_singleton_request (w : WorldState) (s : XRSessionState)
    (mode : XRMode) (opts : SessionOptions)
    (hs : w.currentSession = some s) :
    requestSession w mode opts = (Except.error XRErr.invalidState, w) ∧
    (requestSession ((endSession s w).2) mode opts).1 =
      Except.ok (initialSession mode opts) ∧
    ((requestSession ((endSession s w).2) mode opts).2).currentSession =
      some (initialSession mode opts) := by
  refine ⟨?_, ?_, ?_⟩ <;> simp [requestSession, endSession, hs]

/-- A concrete session for the session-lifecycle instances. -/
def sampleSession : XRSessionState := initialSession XRMode.immersiveVR ⟨false, false⟩

/-- A concrete world with the sample session active, tracking on, camera
live and a frame-loop iteration scheduled. -/
def sampleWorld : WorldState := ⟨some sampleSession, true, true, true, 0⟩

/-- Witness for C2 at the concrete active world. -/
theorem session_singleton_request_witness :
    sampleWorld.currentSession = some sampleSession ∧
    (requestSession sampleWorld XRMode.immersiveVR ⟨false, false⟩ =
        (Except.error XRErr.invalidState, sampleWorld) ∧
      (requestSession ((endSession sampleSession sampleWorld).2)
          XRMode.immersiveVR ⟨false, false⟩).1 =
        Except.ok (initialSession XRMode.immersiveVR ⟨false, false⟩) ∧
      ((requestSession ((endSession sampleSession sampleWorld).2)
          XRMode.immersiveVR ⟨false, false⟩).2).currentSession =
        some (initialSession XRMode.immersiveVR ⟨false, false⟩)) :=
  ⟨rfl, session_singleton_request sampleWorld sampleSession XRMode.immersiveVR
    ⟨false, false⟩ rfl⟩

/--
C8 counterexample: calling end() a second time on the already-ended sample
session dispatches an additional end event — the end-event count after two
calls differs from the count after one call, refuting the claim that a
second end() produces no additional end event. -/
theorem end_session_repeat_event_counterexample :
    ((endSession (endSession sampleSession sampleWorld).1
        (endSession sampleSession sampleWorld).2).2).endEventCount = 2 ∧
      ((endSession sampleSession sampleWorld).2).endEventCount = 1 ∧
      (2 : ℕ) ≠ 1 := by
  refine ⟨rfl, rfl, by decide⟩

/--
C8 amended: ending a session cancels the scheduled frame-loop iteration,
stops tracking, releases the camera, clears the active-session singleton,
marks the session ended and raises exactly one end event; a second end()
call on the already-ended session changes none of that state again, but
does dispatch one additional end event. -/
theorem end_session_effects_and_repeat (s : XRSessionState) (w : WorldState) :
    ((endSession s w).1).ended = true ∧
    ((endSession s w).2).isTracking = false ∧
    ((endSession s w).2).frameLoopScheduled = false ∧
    ((endSession s w).2).cameraActive = false ∧
    ((endSession s w).2).currentSession = none ∧
    ((endSession s w).2).endEventCount = w.endEventCount + 1 ∧
    endSession (endSession s w).1 (endSession s w).2 =
      ((endSession s w).1,
        { (endSession s w).2 with
            endEventCount := ((endSession s w).2).endEventCount + 1 }) :=
  ⟨rfl, rfl, rfl, rfl, rfl, rfl, rfl⟩

/-- A position-orientation pair, the data of an XRRigidTransform
(src/polyfill.js lines 1127-1135). -/
structure RigidTransform where
  position : Vec3
  orientation : Quat

/-- An XRReferenceSpace: a type tag plus the optional origin offset
installed by getOffsetReferenceSpace (src/polyfill.js lines 869-886). -/
structure XRReferenceSpace where
  type : RefType
  originOffset : Option RigidTransform

/-- getOffsetReferenceSpace (src/polyfill.js lines 878-885): a new space of
the same type carrying the given origin offset. -/
def getOffsetReferenceSpace (sp : XRReferenceSpace)
    (originOffset : RigidTransform) : XRReferenceSpace :=
  { type := sp.type, originOffset := some originOffset }

/-- The XRViewerPose transform (src/polyfill.js lines 761-793): head
position, plus the standing height on y for floor-relative types, minus
the origin offset's position when one is registered; the orientation is
the smoothed head rotation. -/
def viewerPoseTransform (rs : XRReferenceSpace) (headPos : Vec3)
    (headRot : Quat) : RigidTransform :=
  let heightOffset : ℝ :=
    if rs.type = RefType.localFloor ∨ rs.type = RefType.boundedFloor then
      standingHeight
    else 0
  let posX := headPos.x
  let posY := headPos.y + heightOffset
  let posZ := headPos.z
  match rs.originOffset with
  | some off =>
      ⟨⟨posX - off.position.x, posY - off.position.y, posZ - off.position.z⟩,
        headRot⟩
  | none => ⟨⟨posX, posY, posZ⟩, headRot⟩

/-- Componentwise vector addition. -/
def vadd (a b : Vec3) : Vec3 := ⟨a.x + b.x, a.y + b.y, a.z + b.z⟩

/-- Componentwise vector subtraction. -/
def vsub (a b : Vec3) : Vec3 := ⟨a.x - b.x, a.y - b.y, a.z - b.z⟩

/-- The standing-height offset vector the spec assigns to each
reference-space type: the y offset applies exactly to the floor-relative
types. -/
def heightVecFor (t : RefType) : Vec3 :=
  ⟨0, if t = RefType.localFloor ∨ t = RefType.boundedFloor then standingHeight
      else 0, 0⟩

/--
C6: the viewer pose position is the head position, plus the standing
height on y exactly for local-floor and bounded-floor (zero for viewer and
local), minus the origin offset's position when one is registered; in
particular an offset of (1,0,0) on a non-floor space with the head at the
origin gives position (-1,0,0). -/
theorem viewer_pose_position_formula (t : RefType)
    (off : Option RigidTransform) (head : Vec3) (rot : Quat) :
    (viewerPoseTransform ⟨t, off⟩ head rot).position =
      vsub (vadd head (heightVecFor t))
        ((off.map fun o => o.position).getD ⟨0, 0, 0⟩) ∧
    heightVecFor RefType.viewer = ⟨0, 0, 0⟩ ∧
    heightVecFor RefType.localSpace = ⟨0, 0, 0⟩ ∧
    heightVecFor RefType.localFloor = ⟨0, standingHeight, 0⟩ ∧
    heightVecFor RefType.boundedFloor = ⟨0, standingHeight, 0⟩ ∧
    (viewerPoseTransform
        (getOffsetReferenceSpace ⟨RefType.localSpace, none⟩
          ⟨⟨1, 0, 0⟩, Quat.ident⟩) ⟨0, 0, 0⟩ rot).position = ⟨-1, 0, 0⟩ := by
  refine ⟨?_, rfl, rfl, rfl, rfl, ?_⟩
  · cases off with
    | none => ext <;> simp [viewerPoseTransform, vadd, vsub, heightVecFor]
    | some o => ext <;> simp [viewerPoseTransform, vadd, vsub, heightVecFor]
  · ext <;> simp [viewerPoseTransform, getOffsetReferenceSpace, RefType]

/--
C9: the viewer pose orientation is exactly the current head rotation for
every reference space, with or without an origin offset, and the origin
offset's orientation component is ignored entirely: two offsets sharing a
position but differing in orientation give identical viewer poses. -/
theorem viewer_pose_ignores_offset_orientation (t : RefType) (p : Vec3)
    (o1 o2 : Quat) (head : Vec3) (rot : Quat) :
    (viewerPoseTransform ⟨t, some ⟨p, o1⟩⟩ head rot).orientation = rot ∧
    (viewerPoseTransform ⟨t, none⟩ head rot).orientation = rot ∧
    viewerPoseTransform ⟨t, some ⟨p, o1⟩⟩ head rot =
      viewerPoseTransform ⟨t, some ⟨p, o2⟩⟩ head rot :=
  ⟨rfl, rfl, rfl⟩

/-- JOINT_CHAIN_NEXT (src/polyfill.js lines 899-906): the chain successor
of each joint index; indices outside the table have no successor (the
JavaScript lookup yields undefined). -/
def jointChainNext (i : ℕ) : Option ℕ :=
  match i with
  | 0 => some 5
  | 1 => some 2
  | 2 => some 3
  | 3 => some 4
  | 4 => some 4
  | 5 => some 6
  | 6 => some 7
  | 7 => some 8
  | 8 => some 9
  | 9 => some 9
  | 10 => some 11
  | 11 => some 12
  | 12 => some 13
  | 13 => some 14
  | 14 => some 14
  | 15 => some 16
  | 16 => some 17
  | 17 => some 18
  | 18 => some 19
  | 19 => some 19
  | 20 => some 21
  | 21 => some 22
  | 22 => some 23
  | 23 => some 24
  | 24 => some 24
  | _ => none

/-- computeJointOrientation (src/polyfill.js lines 910-1062): orient the
bone from the joint toward its chain successor, with the palm normal as
the up reference (a derived radial direction for thumb joints), a world-up
then x-axis fallback when the forward direction is parallel to up, and the
shared trace-based matrix-to-quaternion conversion on the
right / up / minus-forward basis. -/
def computeJointOrientation (joints : List Joint) (jointIndex : ℕ)
    (palmNormal : Vec3) (hnd : Handedness) : Quat :=
  match jointChainNext jointIndex with
  | none => ⟨0, 0, 0, 1⟩
  | some nextIndex =>
      match joints.get? jointIndex, joints.get? nextIndex with
      | some current, some next =>
          if jointIndex = nextIndex then ⟨0, 0, 0, 1⟩
          else
            let fwdX0 := next.position.x - current.position.x
            let fwdY0 := next.position.y - current.position.y
            let fwdZ0 := next.position.z - current.position.z
            let fwdLen := Real.sqrt (fwdX0 * fwdX0 + fwdY0 * fwdY0 + fwdZ0 * fwdZ0)
            if fwdLen < 0.0001 then ⟨0, 0, 0, 1⟩
            else
              let fwdX := fwdX0 / fwdLen
              let fwdY := fwdY0 / fwdLen
              let fwdZ := fwdZ0 / fwdLen
              let upRef : Vec3 :=
                if 1 ≤ jointIndex ∧ jointIndex ≤ 4 then
                  let tRX := palmNormal.y * fwdZ - palmNormal.z * fwdY
                  let tRY := palmNormal.z * fwdX - palmNormal.x * fwdZ
                  let tRZ := palmNormal.x * fwdY - palmNormal.y * fwdX
                  let tRLen := Real.sqrt (tRX * tRX + tRY * tRY + tRZ * tRZ)
                  if tRLen > 0.0001 then
                    let sign : ℝ := if hnd = Handedness.left then -1 else 1
                    ⟨tRX / tRLen * sign, tRY / tRLen * sign, tRZ / tRLen * sign⟩
                  else palmNormal
                else palmNormal
              let r0X := fwdY * upRef.z - fwdZ * upRef.y
              let r0Y := fwdZ * upRef.x - fwdX * upRef.z
              let r0Z := fwdX * upRef.y - fwdY * upRef.x
              let r0Len := Real.sqrt (r0X * r0X + r0Y * r0Y + r0Z * r0Z)
              let rightAndLen : Vec3 × ℝ :=
                if r0Len < 0.0001 then
                  let r1X := fwdY * 0 - fwdZ * 1
                  let r1Y := fwdZ * 0 - fwdX * 0
                  let r1Z := fwdX * 1 - fwdY * 0
                  let r1Len := Real.sqrt (r1X * r1X + r1Y * r1Y + r1Z * r1Z)
                  if r1Len < 0.0001 then (⟨1, 0, 0⟩, 1)
                  else (⟨r1X, r1Y, r1Z⟩, r1Len)
                else (⟨r0X, r0Y, r0Z⟩, r0Len)
              let rightX := rightAndLen.1.x / rightAndLen.2
              let rightY := rightAndLen.1.y / rightAndLen.2
              let rightZ := rightAndLen.1.z / rightAndLen.2
              let upX := rightY * fwdZ - rightZ * fwdY
              let upY := rightZ * fwdX - rightX * fwdZ
              let upZ := rightX * fwdY - rightY * fwdX
              quatFromBasis rightX upX (-fwdX) rightY upY (-fwdY) rightZ upZ (-fwdZ)
      | _, _ => ⟨0, 0, 0, 1⟩

/-- The data an XRJointSpace holds: the current hand data, whose palm
normal and handedness may be absent (the XRHand constructor and
XRHand._update install a bare joints-only record when there is no hand,
src/polyfill.js lines 1471-1489). -/
structure JointHandData where
  joints : List Joint
  palmNormal : Option Vec3
  handedness : Option Handedness

/-- The joints-only record installed before any detection and on updates
with absent hand data. -/
def emptyJointHandData : JointHandData := ⟨[], none, none⟩

/-- The fixed joint radius, this._radius = 0.01 set in the XRJointSpace
constructor (src/polyfill.js line 1072). -/
def jointRadius : ℝ := 0.01

/-- A pose as returned by pose queries. -/
structure XRPoseModel where
  transform : RigidTransform

/-- A joint pose: a pose plus the joint radius. -/
structure XRJointPoseModel where
  transform : RigidTransform
  radius : ℝ

/-- XRJointSpace._getPose (src/polyfill.js lines 1076-1091): null when the
joint index is missing from the current hand data, else a pose built from
the joint position and the computed joint orientation, with fallback
defaults for an absent palm normal or handedness. -/
def jointSpaceGetPose (hd : JointHandData) (i : ℕ) : Option XRPoseModel :=
  match hd.joints.get? i with
  | none => none
  | some joint =>
      let palm := hd.palmNormal.getD ⟨0, 1, 0⟩
      let h := hd.handedness.getD Handedness.right
      some ⟨⟨joint.position, computeJointOrientation hd.joints i palm h⟩⟩

/-- XRJointSpace._getJointPose (src/polyfill.js lines 1093-1099): null
when _getPose is null, else the pose with the fixed radius attached. -/
def jointSpaceGetJointPose (hd : JointHandData) (i : ℕ) :
    Option XRJointPoseModel :=
  match jointSpaceGetPose hd i with
  | none => none
  | some pose => some ⟨pose.transform, jointRadius⟩

/-- The spaces a frame pose query can receive: a hand joint space or a
plain space with a stored transform. -/
inductive SpaceRef where
  | jointSpace (hd : JointHandData) (i : ℕ)
  | plainSpace (t : RigidTransform)

/-- XRFrame.getPose (src/polyfill.js lines 714-720): joint spaces defer to
their _getPose; plain spaces wrap their stored transform. -/
def frameGetPose : SpaceRef → Option XRPoseModel
  | .jointSpace hd i => jointSpaceGetPose hd i
  | .plainSpace t => some ⟨t⟩

/-- XRFrame.getJointPose (src/polyfill.js lines 722-727): joint spaces
defer to _getJointPose; anything else yields null. -/
def frameGetJointPose : SpaceRef → Option XRJointPoseModel
  | .jointSpace hd i => jointSpaceGetJointPose hd i
  | .plainSpace _ => none

/--
C10: when the joint space's hand data has no joints (never detected, or
updated with absent data), frame.getPose and frame.getJointPose return
null rather than a pose or an error; when the joint is present, the
returned joint pose carries the fixed 1 cm radius. -/
theorem joint_pose_null_safety (hd : JointHandData) (i : ℕ) :
    (hd.joints = [] →
      frameGetPose (SpaceRef.jointSpace hd i) = none ∧
      frameGetJointPose (SpaceRef.jointSpace hd i) = none) ∧
    (∀ j, hd.joints.get? i = some j →
      ∃ p, frameGetJointPose (SpaceRef.jointSpace hd i) = some p ∧
        p.radius = 0.01 ∧ p.transform.position = j.position) := by
  constructor
  · intro he
    constructor <;>
      simp [frameGetPose, frameGetJointPose, jointSpaceGetPose,
        jointSpaceGetJointPose, he]
  · intro j hj
    rw [List.get?_eq_getElem?] at hj
    refine ⟨⟨⟨j.position, computeJointOrientation hd.joints i
        (hd.palmNormal.getD ⟨0, 1, 0⟩) (hd.handedness.getD Handedness.right)⟩,
        jointRadius⟩, ?_, rfl, rfl⟩
    simp [frameGetJointPose, jointSpaceGetJointPose, jointSpaceGetPose, hj]

/-- A concrete one-joint hand record. -/
def oneJointHandData : JointHandData :=
  ⟨[pinchJointA], some ⟨0, 1, 0⟩, some Handedness.right⟩

/-- Witness for C10: empty hand data yields null poses; a present joint
yields a joint pose with radius 0.01. -/
theorem joint_pose_null_safety_witness :
    (frameGetPose (SpaceRef.jointSpace emptyJointHandData 0) = none ∧
      frameGetJointPose (SpaceRef.jointSpace emptyJointHandData 0) = none) ∧
    (∃ p, frameGetJointPose (SpaceRef.jointSpace oneJointHandData 0) = some p ∧
      p.radius = 0.01 ∧ p.transform.position = pinchJointA.position) :=
  ⟨(joint_pose_null_safety emptyJointHandData 0).1 rfl,
    (joint_pose_null_safety oneJointHandData 0).2 pinchJointA rfl⟩

end

end WebXRWebcam
